import Mathlib

/-!
Verification of the GoogleFinance scraper (`src/main.py`).

The program is embedded shallowly:

* Python `float` values are modelled as exact rationals (`ℚ`); the spec's
  numerical claims are stated "exactly ... under exact rational arithmetic".
* Python `int` is modelled as `ℤ`.
* Network I/O is modelled by oracles: each fetch site takes, as an explicit
  argument, the outcome the external world produced at that site
  (`HttpResult`, `PageOutcome`), and `random.choice` takes an index.
* Python exceptions become `Except` values; the three custom exception
  classes of `exceptions.py` become structures carrying the message string,
  built exactly as the `f`-strings of the source build them.
* `print`/`tabulate` string rendering is not modelled; the reporter's table
  is modelled by the `position_data` row list the source builds and passes
  to `tabulate`, plus the computed total.
-/

/-- Browser-identity header set, a JSON object of header / value pairs
(`Dict[str, str]` in the source). -/
def AgentHeaders : Type := List (String × String)

/-- Outcome of a `requests.get` call: either a `requests.RequestException`
(this also covers the `HTTPError` from `raise_for_status`) carrying the
exception text, or a successful response carrying the body. -/
inductive HttpResult (α : Type) : Type
  | requestException (msg : String)
  | success (body : α)
deriving DecidableEq

/-- Outcome of `response.json().get("result", [])` on the header-rotation
API response: the JSON decode can fail (`ValueError`), or it yields a dict
in which the `"result"` key is absent (`none`) or maps to a list of header
sets. -/
inductive JsonOutcome : Type
  | malformed (msg : String)
  | parsed (result : Option (List AgentHeaders))

/-- `exceptions.BrowserAgentFetchError`, carrying its message. -/
structure BrowserAgentFetchError : Type where
  msg : String
deriving DecidableEq

/-- `exceptions.ExchangeRateFetchError`, carrying its message. -/
structure ExchangeRateFetchError : Type where
  msg : String
deriving DecidableEq

/-- `exceptions.PriceInformationFetchError`, carrying its message. -/
structure PriceInformationFetchError : Type where
  msg : String
deriving DecidableEq

/-- `get_random_browser_agent` (src/main.py lines 55-90).  The outcome of
the HTTP call is the oracle `resp`; `random.choice` is modelled by the
oracle index `choiceIx`, reduced modulo the pool size (`random.choice`
returns some element of a nonempty list).  The body mirrors the source:
a `RequestException` is wrapped, a JSON decode failure is wrapped, a
nonempty pool yields a chosen element, an empty pool raises. -/
def get_random_browser_agent (resp : HttpResult JsonOutcome) (choiceIx : Nat) :
    Except BrowserAgentFetchError AgentHeaders :=
  match resp with
  | .requestException m =>
      .error ⟨"Error fetching browser agents: " ++ m⟩
  | .success jo =>
      match jo with
      | .malformed m =>
          .error ⟨"Error decoding JSON: " ++ m⟩
      | .parsed result =>
          let browser_agents := result.getD []
          match browser_agents with
          | [] => .error ⟨"No browser agents found in the response."⟩
          | a :: rest =>
              .ok ((a :: rest).get ⟨choiceIx % (a :: rest).length, Nat.mod_lt _ (Nat.succ_pos _)⟩)

/-- Python decimal-numeral parsing as performed by `float(...)` on the
`data-last-price` attribute text: optional surrounding whitespace, optional
sign, integer digits, optional `.` and fraction digits, at least one digit.
(The exponent and `inf`/`nan` forms accepted by Python are not modelled;
the claims only distinguish numeric from non-numeric text.)  Returns the
exact rational value of the numeral, `none` on a `ValueError`. -/
def digitsToNat (cs : List Char) : ℕ :=
  cs.foldl (fun a c => a * 10 + (c.toNat - 48)) 0

/-- Whitespace stripping performed by Python `float` before parsing. -/
def stripSpaces (cs : List Char) : List Char :=
  ((cs.dropWhile Char.isWhitespace).reverse.dropWhile Char.isWhitespace).reverse

def pyFloat (s : String) : Option ℚ :=
  let cs := stripSpaces s.toList
  let signAndRest : ℚ × List Char :=
    match cs with
    | '-' :: r => (-1, r)
    | '+' :: r => (1, r)
    | r => (1, r)
  let sign := signAndRest.1
  let rest := signAndRest.2
  let ip := rest.takeWhile (fun c => c ≠ '.')
  let rest2 := rest.dropWhile (fun c => c ≠ '.')
  let fp := match rest2 with
    | [] => []
    | _ :: t => t
  if ip.all Char.isDigit ∧ fp.all Char.isDigit ∧ (ip ≠ [] ∨ fp ≠ []) then
    some (sign * ((digitsToNat ip : ℚ) + (digitsToNat fp : ℚ) / ((10 : ℚ) ^ fp.length)))
  else
    none

/-- Python `round(x, 2)`: round to 2 decimal places with ties going to the
even hundredth (banker's rounding), modelled on exact rationals. -/
def pyRound2 (x : ℚ) : ℚ :=
  let y := x * 100
  let f : ℤ := Int.floor y
  let r := y - (f : ℚ)
  let n : ℤ :=
    if r < 1 / 2 then f
    else if 1 / 2 < r then f + 1
    else if f % 2 = 0 then f else f + 1
  (n : ℚ) / 100

/-- The `div` element `soup.find(name="div", attrs={"data-last-price": True})`
matches: it necessarily carries a `data-last-price` attribute (that is what
`find` selected on), and may or may not carry `data-currency-code`
(BeautifulSoup raises `KeyError` when the subscripted attribute is absent). -/
structure PriceDiv : Type where
  lastPrice : String
  currencyCode : Option String
deriving DecidableEq

/-- Outcome of fetching and parsing a quote page: the `requests.get` /
`raise_for_status` pair may raise a `RequestException`, or the fetched HTML
parses and `soup.find` yields either no matching element or one. -/
inductive PageOutcome : Type
  | requestException (msg : String)
  | page (priceDiv : Option PriceDiv)
deriving DecidableEq

/-- The external-world inputs consumed by `get_fx_to_usd`: the header-API
outcome and choice index for its own `get_random_browser_agent()` call, and
the outcome of fetching the `<currency>-USD` quote page. -/
structure FxEnv : Type where
  agentResp : HttpResult JsonOutcome
  agentChoice : Nat
  page : PageOutcome

/-- `get_fx_to_usd` (src/main.py lines 93-128).  Mirrors the source: a
`BrowserAgentFetchError` escaping `get_random_browser_agent` is caught by
the final generic `except Exception` clause; a `RequestException`, a missing
element and a non-numeric attribute text map to the dedicated clauses. -/
def get_fx_to_usd (env : FxEnv) : Except ExchangeRateFetchError ℚ :=
  match get_random_browser_agent env.agentResp env.agentChoice with
  | .error e => .error ⟨"An unexpected error occurred: " ++ e.msg⟩
  | .ok _ =>
      match env.page with
      | .requestException m =>
          .error ⟨"Error fetching exchange rate: " ++ m⟩
      | .page none =>
          .error ⟨"Unable to find exchange rate on the page."⟩
      | .page (some fx_rate) =>
          match pyFloat fx_rate.lastPrice with
          | none =>
              .error ⟨"Error converting exchange rate: could not convert string to float: "
                ++ fx_rate.lastPrice⟩
          | some fx => .ok fx

/-- The dict returned by `get_price_information` (src/main.py lines 165-171). -/
structure PriceRecord : Type where
  ticker : String
  exchange : String
  price : ℚ
  currency : String
  usd_price : ℚ
deriving DecidableEq

/-- The external-world inputs consumed by one `get_price_information` call:
its own agent fetch, the quote-page fetch, and (consumed only when the
currency is not USD) the inputs of the nested `get_fx_to_usd` call. -/
structure QuoteEnv : Type where
  agentResp : HttpResult JsonOutcome
  agentChoice : Nat
  page : PageOutcome
  fxEnv : FxEnv

/-- `get_price_information` (src/main.py lines 131-183).  Mirrors the
source's control and exception flow: a `BrowserAgentFetchError` or an
`ExchangeRateFetchError` escaping the nested calls is caught by the generic
`except Exception` clause; a `RequestException` on the quote page, a missing
price element, a non-numeric `data-last-price` text (`ValueError`) and a
missing `data-currency-code` attribute (`KeyError`, generic clause) map as
in the source.  On success the returned dict echoes the input `ticker` and
`exchange` and holds `usd_price = price` for USD, otherwise
`round(price * fx, 2)`. -/
def get_price_information (ticker exchange : String) (env : QuoteEnv) :
    Except PriceInformationFetchError PriceRecord :=
  match get_random_browser_agent env.agentResp env.agentChoice with
  | .error e => .error ⟨"An unexpected error occurred: " ++ e.msg⟩
  | .ok _ =>
      match env.page with
      | .requestException m =>
          .error ⟨"Error fetching price information: " ++ m⟩
      | .page none =>
          .error ⟨"Price information not found."⟩
      | .page (some price_div) =>
          match pyFloat price_div.lastPrice with
          | none =>
              .error ⟨"Error converting price information: could not convert string to float: "
                ++ price_div.lastPrice⟩
          | some price =>
              match price_div.currencyCode with
              | none =>
                  .error ⟨"An unexpected error occurred: data-currency-code"⟩
              | some currency =>
                  if currency ≠ "USD" then
                    match get_fx_to_usd env.fxEnv with
                    | .error e => .error ⟨"An unexpected error occurred: " ++ e.msg⟩
                    | .ok fx =>
                        .ok ⟨ticker, exchange, price, currency, pyRound2 (price * fx)⟩
                  else
                    .ok ⟨ticker, exchange, price, currency, price⟩

/-- The `Stock` dataclass (src/main.py lines 19-33). -/
structure Stock : Type where
  ticker : String
  exchange : String
  price : ℚ
  currency : String
  usd_price : ℚ
deriving DecidableEq

/-- `Stock` construction: the dataclass `__init__` stores the
caller-supplied field values, then `__post_init__` calls
`get_price_information` (whose failure propagates out of construction) and,
when the returned record's ticker equals the stock's ticker, overwrites
`price`, `currency` and `usd_price` from the record. -/
def Stock.make (ticker exchange : String) (price : ℚ) (currency : String)
    (usd_price : ℚ) (env : QuoteEnv) : Except PriceInformationFetchError Stock :=
  match get_price_information ticker exchange env with
  | .error e => .error e
  | .ok price_info =>
      if price_info.ticker = ticker then
        .ok ⟨ticker, exchange, price_info.price, price_info.currency, price_info.usd_price⟩
      else
        .ok ⟨ticker, exchange, price, currency, usd_price⟩

/-- The `Position` dataclass (src/main.py lines 36-39). -/
structure Position : Type where
  stock : Stock
  quantity : ℤ
deriving DecidableEq

/-- The `Portfolio` dataclass (src/main.py lines 42-44). -/
structure Portfolio : Type where
  positions : List Position
deriving DecidableEq

/-- `Portfolio.get_total_value` (src/main.py lines 46-52): starts from 0
and adds `position.quantity * position.stock.usd_price` over the position
list in order. -/
def Portfolio.get_total_value (p : Portfolio) : ℚ :=
  p.positions.foldl (fun total_value position =>
    total_value + (position.quantity : ℚ) * position.stock.usd_price) 0

/-- The sort key of src/main.py line 195:
`lambda x: x.quantity * x.stock.usd_price` — the position's market value. -/
def market_value (position : Position) : ℚ :=
  (position.quantity : ℚ) * position.stock.usd_price

/-- One insertion step of a stable non-increasing sort by `market_value`:
the inserted element goes in front of the first element whose key is not
larger than its own, so it ends up after every earlier element with a
strictly larger key and before every later element with an equal key. -/
def insert_desc (a : Position) : List Position → List Position
  | [] => [a]
  | b :: l =>
      if market_value b ≤ market_value a then a :: b :: l
      else b :: insert_desc a l

/-- `sorted(portfolio.positions, key=lambda x: x.quantity * x.stock.usd_price,
reverse=True)` (src/main.py lines 194-196).  CPython's `sorted` is a stable
sort; with `reverse=True` it orders keys non-increasingly while elements
with equal keys keep their original relative order.  Any stable
non-increasing sort computes the same list, so it is embedded as a stable
insertion sort. -/
def sorted_desc : List Position → List Position
  | [] => []
  | a :: l => insert_desc a (sorted_desc l)

/-- One row of `position_data` (src/main.py lines 197-206): ticker,
exchange, quantity, unit USD price, market value, percent allocation. -/
structure Row : Type where
  ticker : String
  exchange : String
  quantity : ℤ
  price : ℚ
  market_value : ℚ
  pct_allocation : ℚ
deriving DecidableEq

/-- The Python runtime errors the reporter can raise: the percent-allocation
expression divides by `portfolio_value`, and Python division (of ints or
floats) by zero raises `ZeroDivisionError`. -/
inductive PyError : Type
  | zeroDivisionError
deriving DecidableEq

/-- The state the body of `display_portfolio_summary` can read or write:
the portfolio object passed in (Python passes the reference; any mutation
would be visible to the caller) and the local `position_data` list. -/
structure DisplayState : Type where
  portfolio : Portfolio
  position_data : List Row
deriving DecidableEq

/-- The row list literal appended in src/main.py lines 197-206. -/
def position_row (portfolio_value : ℚ) (position : Position) : Row :=
  ⟨position.stock.ticker, position.stock.exchange, position.quantity,
   position.stock.usd_price,
   (position.quantity : ℚ) * position.stock.usd_price,
   (position.quantity : ℚ) * position.stock.usd_price / portfolio_value * 100⟩

/-- The `for` loop of src/main.py lines 194-206, as a state transformer:
for each position of the (already sorted) list it appends one row to
`position_data`; building the row evaluates
`position.quantity * position.stock.usd_price / portfolio_value * 100`,
which raises `ZeroDivisionError` when `portfolio_value` is zero, aborting
the loop with the state accumulated so far. -/
def display_loop (portfolio_value : ℚ) (st : DisplayState) :
    List Position → DisplayState × Option PyError
  | [] => (st, none)
  | position :: rest =>
      if portfolio_value = 0 then (st, some .zeroDivisionError)
      else
        display_loop portfolio_value
          { st with position_data :=
              st.position_data ++ [position_row portfolio_value position] }
          rest

/-- `display_portfolio_summary` (src/main.py lines 186-224).  The
`isinstance` guard is satisfied by typing; `portfolio_value` is computed
once; the loop builds `position_data` over the positions sorted by market
value descending; `tabulate`/`print` render `position_data` and the total
(string rendering is not modelled — the observable table content is the
final `position_data` and the total value).  The result pairs the final
state with the Python exception, if one was raised. -/
def display_portfolio_summary (portfolio : Portfolio) :
    DisplayState × Option PyError :=
  display_loop portfolio.get_total_value ⟨portfolio, []⟩
    (sorted_desc portfolio.positions)

/-! ## Helper lemmas -/

/-- The accumulating loop of `get_total_value` computes the initial value
plus the sum of the market values. -/
theorem foldl_add_market_value (l : List Position) (a : ℚ) :
    l.foldl (fun total_value position =>
      total_value + (position.quantity : ℚ) * position.stock.usd_price) a
      = a + (l.map market_value).sum := by
  induction l generalizing a with
  | nil => simp
  | cons p t ih =>
      simp only [List.foldl_cons, List.map_cons, List.sum_cons, ih, market_value]
      ring

theorem get_total_value_eq_sum (p : Portfolio) :
    p.get_total_value = (p.positions.map market_value).sum := by
  have h := foldl_add_market_value p.positions 0
  simpa [Portfolio.get_total_value] using h

/-- Inserting an element produces a permutation of consing it. -/
theorem insert_desc_perm (a : Position) (l : List Position) :
    List.Perm (insert_desc a l) (a :: l) := by
  induction l with
  | nil => exact List.Perm.refl _
  | cons b t ih =>
      by_cases h : market_value b ≤ market_value a
      · simp [insert_desc, h]
      · simp only [insert_desc, if_neg h]
        exact (ih.cons b).trans (List.Perm.swap a b t)

/-- The stable descending sort permutes its input. -/
theorem sorted_desc_perm (l : List Position) :
    List.Perm (sorted_desc l) l := by
  induction l with
  | nil => exact List.Perm.refl _
  | cons a t ih =>
      exact (insert_desc_perm a (sorted_desc t)).trans (ih.cons a)

/-- Insertion preserves the non-increasing pairwise ordering. -/
theorem insert_desc_pairwise (a : Position) (l : List Position)
    (h : l.Pairwise (fun x y => market_value y ≤ market_value x)) :
    (insert_desc a l).Pairwise (fun x y => market_value y ≤ market_value x) := by
  induction l with
  | nil => simp [insert_desc]
  | cons b t ih =>
      rcases List.pairwise_cons.1 h with ⟨hb, ht⟩
      by_cases hba : market_value b ≤ market_value a
      · simp only [insert_desc, if_pos hba]
        refine List.pairwise_cons.2 ⟨?_, h⟩
        intro z hz
        rcases List.mem_cons.1 hz with rfl | hz
        · exact hba
        · exact le_trans (hb z hz) hba
      · simp only [insert_desc, if_neg hba]
        refine List.pairwise_cons.2 ⟨?_, ih ht⟩
        intro z hz
        have hz' : z ∈ a :: t := (insert_desc_perm a t).mem_iff.1 hz
        rcases List.mem_cons.1 hz' with rfl | hz'
        · exact le_of_lt (lt_of_not_le hba)
        · exact hb z hz'

/-- The stable descending sort is non-increasing in market value. -/
theorem sorted_desc_pairwise (l : List Position) :
    (sorted_desc l).Pairwise (fun x y => market_value y ≤ market_value x) := by
  induction l with
  | nil => simp [sorted_desc]
  | cons a t ih => exact insert_desc_pairwise a (sorted_desc t) ih

/-- Insertion is stable: restricted to any single key value, it either
prepends the new element (when it has that key) or leaves the restriction
unchanged. -/
theorem filter_insert_desc (a : Position) (l : List Position) (v : ℚ) :
    (insert_desc a l).filter (fun x => decide (market_value x = v)) =
      if market_value a = v
      then a :: l.filter (fun x => decide (market_value x = v))
      else l.filter (fun x => decide (market_value x = v)) := by
  induction l with
  | nil =>
      by_cases h : market_value a = v <;> simp [insert_desc, h]
  | cons b t ih =>
      by_cases hba : market_value b ≤ market_value a
      · simp only [insert_desc, if_pos hba]
        by_cases ha : market_value a = v <;> simp [List.filter_cons, ha]
      · simp only [insert_desc, if_neg hba]
        by_cases hb : market_value b = v
        · have ha : ¬ market_value a = v := by
            intro hav
            exact hba (le_of_eq (hb.trans hav.symm))
          simp [List.filter_cons, hb, ha, ih]
        · by_cases ha : market_value a = v <;>
            simp [List.filter_cons, hb, ih, ha]

/-- Stability of the whole sort: the subsequence of positions carrying any
fixed market value is unchanged by the sort. -/
theorem filter_sorted_desc (l : List Position) (v : ℚ) :
    (sorted_desc l).filter (fun x => decide (market_value x = v)) =
      l.filter (fun x => decide (market_value x = v)) := by
  induction l with
  | nil => rfl
  | cons a t ih =>
      by_cases h : market_value a = v <;>
        simp [sorted_desc, filter_insert_desc, h, ih, List.filter_cons]

/-- With a nonzero total, the loop never raises and appends one row per
position, in order. -/
theorem display_loop_ne_zero (portfolio_value : ℚ) (hv : portfolio_value ≠ 0)
    (st : DisplayState) (l : List Position) :
    display_loop portfolio_value st l =
      ({ st with position_data :=
          st.position_data ++ l.map (position_row portfolio_value) }, none) := by
  induction l generalizing st with
  | nil => simp [display_loop]
  | cons p t ih => simp [display_loop, hv, ih]

/-- With a zero total and at least one position, the first iteration raises
`ZeroDivisionError` before any row is appended. -/
theorem display_loop_zero (st : DisplayState) (p : Position) (l : List Position) :
    display_loop 0 st (p :: l) = (st, some PyError.zeroDivisionError) := by
  simp [display_loop]

/-- The loop never writes the portfolio component of the state. -/
theorem display_loop_portfolio (portfolio_value : ℚ) (st : DisplayState)
    (l : List Position) :
    (display_loop portfolio_value st l).1.portfolio = st.portfolio := by
  induction l generalizing st with
  | nil => rfl
  | cons p t ih =>
      by_cases h : portfolio_value = 0 <;> simp [display_loop, h, ih]

/-- Whenever the reporter completes without an exception, its row list is
exactly the sorted position list mapped through the row constructor. -/
theorem display_rows_of_success (p : Portfolio)
    (h : (display_portfolio_summary p).2 = none) :
    (display_portfolio_summary p).1.position_data =
      (sorted_desc p.positions).map (position_row p.get_total_value) := by
  by_cases hv : p.get_total_value = 0
  · rcases hs : sorted_desc p.positions with _ | ⟨q, t⟩
    · simp [display_portfolio_summary, hs, display_loop]
    · exfalso
      have := h
      rw [display_portfolio_summary, hs, hv, display_loop_zero] at this
      exact Option.noConfusion this
  · rw [display_portfolio_summary, display_loop_ne_zero _ hv]
    simp

/-- Row fields are the position fields: the market value stored in a row is
the position's market value. -/
theorem position_row_market_value (portfolio_value : ℚ) (position : Position) :
    (position_row portfolio_value position).market_value = market_value position := rfl

/-- Filtering a mapped row list by market value is mapping the filtered
position list. -/
theorem filter_map_position_row (portfolio_value : ℚ) (l : List Position) (v : ℚ) :
    (l.map (position_row portfolio_value)).filter
        (fun r => decide (r.market_value = v)) =
      (l.filter (fun x => decide (market_value x = v))).map
        (position_row portfolio_value) := by
  induction l with
  | nil => rfl
  | cons q t ih =>
      by_cases h : market_value q = v <;>
        simp [List.filter_cons, position_row_market_value, h, ih]

/-- Summing `x / T * c` over a list factors through the sum. -/
theorem sum_map_div_mul (l : List ℚ) (T c : ℚ) :
    (l.map (fun x => x / T * c)).sum = l.sum / T * c := by
  induction l with
  | nil => simp
  | cons x t ih =>
      simp only [List.map_cons, List.sum_cons, ih]
      ring

/-- Success shape of the quote service: a successful record echoes the
input ticker and exchange, stems from a found and numerically parsed price
element, and its USD price is the native price when the currency is USD,
otherwise the rounded product with the rate returned by `get_fx_to_usd`. -/
theorem get_price_information_ok (ticker exchange : String) (env : QuoteEnv)
    (r : PriceRecord) (h : get_price_information ticker exchange env = .ok r) :
    r.ticker = ticker ∧ r.exchange = exchange ∧
    (∃ d, env.page = .page (some d) ∧ pyFloat d.lastPrice = some r.price ∧
      d.currencyCode = some r.currency) ∧
    (r.currency = "USD" → r.usd_price = r.price) ∧
    (r.currency ≠ "USD" → ∃ fx, get_fx_to_usd env.fxEnv = .ok fx ∧
      r.usd_price = pyRound2 (r.price * fx)) := by
  rcases env with ⟨aresp, aix, page, fenv⟩
  cases hA : get_random_browser_agent aresp aix with
  | error e => simp [get_price_information, hA] at h
  | ok a =>
    cases page with
    | requestException m => simp [get_price_information, hA] at h
    | page pd =>
      cases pd with
      | none => simp [get_price_information, hA] at h
      | some d =>
        cases hp : pyFloat d.lastPrice with
        | none => simp [get_price_information, hA, hp] at h
        | some price =>
          cases hc : d.currencyCode with
          | none => simp [get_price_information, hA, hp, hc] at h
          | some currency =>
            by_cases hcur : currency = "USD"
            · simp only [get_price_information, hA, hp, hc, hcur, ne_eq,
                not_true_eq_false, if_false, ite_false] at h
              obtain rfl := Except.ok.inj h
              exact ⟨rfl, rfl, ⟨d, rfl, hp, hcur ▸ hc⟩, fun _ => rfl,
                fun hne => absurd rfl hne⟩
            · cases hf : get_fx_to_usd fenv with
              | error e => simp [get_price_information, hA, hp, hc, hcur, hf] at h
              | ok fx =>
                simp only [get_price_information, hA, hp, hc, hcur, hf, ne_eq,
                  not_false_eq_true, if_true, ite_true] at h
                obtain rfl := Except.ok.inj h
                exact ⟨rfl, rfl, ⟨d, rfl, hp, hc⟩, fun hu => absurd hu hcur,
                  fun _ => ⟨fx, rfl, rfl⟩⟩

/-! ## Specification-side predicates for the agent provider -/

/-- The failure condition the spec names for the agent provider: the HTTP
call errors, the JSON body is malformed, or the returned list of header
sets is empty (a missing "result" key defaults to the empty list). -/
def agentFetchFails (resp : HttpResult JsonOutcome) : Prop :=
  match resp with
  | .requestException _ => True
  | .success (.malformed _) => True
  | .success (.parsed result) => result.getD [] = []

/-- The list of header sets carried by the response ("the returned list"). -/
def agentPool (resp : HttpResult JsonOutcome) : List AgentHeaders :=
  match resp with
  | .success (.parsed result) => result.getD []
  | _ => []

/-! ## Concrete fixtures used by the witness theorems -/

def agentW : AgentHeaders := [("User-Agent", "x")]

def agentRespW : HttpResult JsonOutcome := .success (.parsed (some [agentW]))

def fxEnvW : FxEnv := ⟨agentRespW, 0, .page (some ⟨"0.75", some "USD"⟩)⟩

def quoteEnvUSD : QuoteEnv := ⟨agentRespW, 0, .page (some ⟨"50", some "USD"⟩), fxEnvW⟩

def quoteEnvNoDiv : QuoteEnv := ⟨agentRespW, 0, .page none, fxEnvW⟩

def msftW : Stock := ⟨"MSFT", "NASDAQ", 50, "USD", 50⟩

def googlW : Stock := ⟨"GOOGL", "NASDAQ", 150, "USD", 150⟩

def pfW : Portfolio := ⟨[⟨msftW, 2⟩, ⟨googlW, 1⟩]⟩

def pfX : Portfolio := ⟨[⟨googlW, 1⟩, ⟨msftW, 2⟩]⟩

def shopW : Stock := ⟨"SHOP", "TSE", 100, "USD", 100⟩

def pfZero : Portfolio := ⟨[⟨shopW, 0⟩]⟩

/-! ## Evaluation lemmas for the fixtures -/

theorem agentRespW_ok : get_random_browser_agent agentRespW 0 = .ok agentW := rfl

theorem pyFloat_50 : pyFloat "50" = some 50 := by
  have h : pyFloat "50" =
      some ((1 : ℚ) * (((50 : ℕ) : ℚ) + ((0 : ℕ) : ℚ) / (10 : ℚ) ^ (0 : ℕ))) := rfl
  rw [h]
  norm_num

theorem gpi_USD : get_price_information "MSFT" "NASDAQ" quoteEnvUSD =
    .ok ⟨"MSFT", "NASDAQ", 50, "USD", 50⟩ := by
  simp [get_price_information, quoteEnvUSD, agentRespW_ok, pyFloat_50]

theorem pfW_total : pfW.get_total_value = 250 := by
  norm_num [Portfolio.get_total_value, pfW, msftW, googlW, List.foldl]

theorem pfW_total_ne : pfW.get_total_value ≠ 0 := by
  rw [pfW_total]
  norm_num

theorem pfW_display_none : (display_portfolio_summary pfW).2 = none := by
  rw [display_portfolio_summary, display_loop_ne_zero _ pfW_total_ne]

/-! ## The claims -/

/-- C1: for every successfully constructed instrument, the USD-normalized
price equals the native price exactly when the currency code is "USD", and
otherwise equals round(native price × fetched FX rate, 2 decimal places). -/
theorem claim_C1_usd_price_normalization (ticker exchange : String)
    (price₀ : ℚ) (currency₀ : String) (usd₀ : ℚ) (env : QuoteEnv) (s : Stock)
    (h : Stock.make ticker exchange price₀ currency₀ usd₀ env = .ok s) :
    (s.currency = "USD" → s.usd_price = s.price) ∧
    (s.currency ≠ "USD" → ∃ fx, get_fx_to_usd env.fxEnv = .ok fx ∧
      s.usd_price = pyRound2 (s.price * fx)) := by
  cases hq : get_price_information ticker exchange env with
  | error e => simp [Stock.make, hq] at h
  | ok info =>
      have hi := get_price_information_ok ticker exchange env info hq
      simp only [Stock.make, hq, hi.1, if_pos] at h
      obtain rfl := Except.ok.inj h
      exact ⟨hi.2.2.2.1, hi.2.2.2.2⟩

/-- C1 witness: a concrete USD-quoted instrument whose USD price is its
native price. -/
theorem claim_C1_witness : msftW.usd_price = msftW.price :=
  (claim_C1_usd_price_normalization "MSFT" "NASDAQ" 7 "EUR" 9 quoteEnvUSD
    msftW (by simp [Stock.make, gpi_USD, msftW])).1 rfl

/-- C2: the portfolio total value is the sum over positions of
quantity × USD price, and is invariant under any permutation of the
position list. -/
theorem claim_C2_total_value (p q : Portfolio)
    (h : List.Perm p.positions q.positions) :
    p.get_total_value = (p.positions.map market_value).sum ∧
    p.get_total_value = q.get_total_value := by
  refine ⟨get_total_value_eq_sum p, ?_⟩
  rw [get_total_value_eq_sum p, get_total_value_eq_sum q]
  exact (h.map market_value).sum_eq

/-- C2 witness: a concrete two-position portfolio and its swap. -/
theorem claim_C2_witness :
    pfW.get_total_value = (pfW.positions.map market_value).sum ∧
    pfW.get_total_value = pfX.get_total_value :=
  claim_C2_total_value pfW pfX (by
    show List.Perm ([⟨msftW, 2⟩, ⟨googlW, 1⟩] : List Position)
      ([⟨googlW, 1⟩, ⟨msftW, 2⟩] : List Position)
    exact List.Perm.swap _ _ _)

/-- C3: whenever the reporter completes, its rows appear in non-increasing
order of market value, and positions with equal market value keep their
original insertion order: restricting the rows to any one market value
yields exactly the original positions with that value, in order. -/
theorem claim_C3_rows_sorted_stable (p : Portfolio)
    (h : (display_portfolio_summary p).2 = none) :
    ((display_portfolio_summary p).1.position_data).Pairwise
      (fun r s => s.market_value ≤ r.market_value) ∧
    ∀ v : ℚ, ((display_portfolio_summary p).1.position_data).filter
        (fun r => decide (r.market_value = v)) =
      (p.positions.filter (fun x => decide (market_value x = v))).map
        (position_row p.get_total_value) := by
  rw [display_rows_of_success p h]
  refine ⟨?_, ?_⟩
  · rw [List.pairwise_map]
    exact sorted_desc_pairwise p.positions
  · intro v
    rw [filter_map_position_row, filter_sorted_desc]

/-- C3 witness: the two-position fixture, restricted to market value 150. -/
theorem claim_C3_witness :
    ((display_portfolio_summary pfW).1.position_data).filter
        (fun r => decide (r.market_value = 150)) =
      (pfW.positions.filter (fun x => decide (market_value x = 150))).map
        (position_row pfW.get_total_value) :=
  (claim_C3_rows_sorted_stable pfW pfW_display_none).2 150

/-- C4 (failing input for the claim): a portfolio with a nonzero position
list but total value 0 makes `display_portfolio_summary` raise
`ZeroDivisionError`; the source computes `market value / portfolio_value`
unconditionally, so no 0% allocation is reported. -/
theorem claim_C4_zero_total_raises :
    pfZero.get_total_value = 0 ∧
    pfZero.positions ≠ [] ∧
    (display_portfolio_summary pfZero).2 = some PyError.zeroDivisionError := by
  have htot : pfZero.get_total_value = 0 := by
    norm_num [Portfolio.get_total_value, pfZero, shopW, List.foldl]
  refine ⟨htot, by simp [pfZero], ?_⟩
  rw [display_portfolio_summary, htot]
  have hs : sorted_desc pfZero.positions = [⟨shopW, 0⟩] := rfl
  rw [hs, display_loop_zero]

/-- C5: with nonzero total value the reporter raises nothing and, under
exact rational arithmetic, the percent allocations over all rows sum to
exactly 100. -/
theorem claim_C5_allocations_sum (p : Portfolio)
    (h : p.get_total_value ≠ 0) :
    (display_portfolio_summary p).2 = none ∧
    (((display_portfolio_summary p).1.position_data).map Row.pct_allocation).sum
      = 100 := by
  have hsnd : (display_portfolio_summary p).2 = none := by
    rw [display_portfolio_summary, display_loop_ne_zero _ h]
  refine ⟨hsnd, ?_⟩
  rw [display_rows_of_success p hsnd, List.map_map]
  have h1 : (Row.pct_allocation ∘ position_row p.get_total_value) =
      ((fun x => x / p.get_total_value * 100) ∘ market_value) := rfl
  rw [h1, ← List.map_map, sum_map_div_mul]
  have h2 : ((sorted_desc p.positions).map market_value).sum =
      (p.positions.map market_value).sum :=
    ((sorted_desc_perm p.positions).map market_value).sum_eq
  rw [h2, ← get_total_value_eq_sum, div_self h, one_mul]

/-- C5 witness: the two-position fixture with total value 250. -/
theorem claim_C5_witness :
    (display_portfolio_summary pfW).2 = none ∧
    (((display_portfolio_summary pfW).1.position_data).map Row.pct_allocation).sum
      = 100 :=
  claim_C5_allocations_sum pfW pfW_total_ne

/-- C6: the empty portfolio has total value 0, and displaying it yields an
empty row list and no exception (the division never executes). -/
theorem claim_C6_empty_portfolio :
    (Portfolio.mk []).get_total_value = 0 ∧
    (display_portfolio_summary (Portfolio.mk [])).1.position_data = [] ∧
    (display_portfolio_summary (Portfolio.mk [])).2 = none :=
  ⟨rfl, rfl, rfl⟩

/-- C7: the agent provider returns a `BrowserAgentFetchError` exactly when
the HTTP call errors, the JSON body is malformed, or the returned list of
header sets is empty; a success returns an element of the returned list. -/
theorem claim_C7_agent_provider (resp : HttpResult JsonOutcome) (ix : ℕ) :
    ((∃ e, get_random_browser_agent resp ix = .error e) ↔ agentFetchFails resp) ∧
    (∀ a, get_random_browser_agent resp ix = .ok a → a ∈ agentPool resp) := by
  rcases resp with m | jo
  · refine ⟨⟨fun _ => trivial, fun _ => ⟨_, rfl⟩⟩, ?_⟩
    intro a ha
    simp [get_random_browser_agent] at ha
  · rcases jo with m | result
    · refine ⟨⟨fun _ => trivial, fun _ => ⟨_, rfl⟩⟩, ?_⟩
      intro a ha
      simp [get_random_browser_agent] at ha
    · rcases result with _ | l
      · refine ⟨⟨fun _ => rfl, fun _ => ⟨_, rfl⟩⟩, ?_⟩
        intro a ha
        simp [get_random_browser_agent] at ha
      · rcases l with _ | ⟨b, rest⟩
        · refine ⟨⟨fun _ => rfl, fun _ => ⟨_, rfl⟩⟩, ?_⟩
          intro a ha
          simp [get_random_browser_agent] at ha
        · refine ⟨⟨?_, ?_⟩, ?_⟩
          · rintro ⟨e, he⟩
            simp [get_random_browser_agent] at he
          · intro hfail
            simp [agentFetchFails] at hfail
          · intro a ha
            have h1 : (b :: rest).get
                ⟨ix % (b :: rest).length, Nat.mod_lt _ (Nat.succ_pos _)⟩ = a :=
              Except.ok.inj ha
            show a ∈ b :: rest
            rw [← h1]
            exact List.get_mem _ _ _

/-- C7 witness: a one-element pool; the chosen agent is in the pool. -/
theorem claim_C7_witness : agentW ∈ agentPool agentRespW :=
  (claim_C7_agent_provider agentRespW 0).2 agentW agentRespW_ok

/-- C8: every quote-service failure — agent failure, network failure on the
quote page, a missing price element, or non-numeric price text — surfaces
as a `PriceInformationFetchError` built from the upstream cause, and any
success comes from a found, numerically parsed price element (a page with
no matching element can never yield a price record). -/
theorem claim_C8_quote_failures (ticker exchange : String) (env : QuoteEnv) :
    (∀ e, get_random_browser_agent env.agentResp env.agentChoice = .error e →
      get_price_information ticker exchange env =
        .error ⟨"An unexpected error occurred: " ++ e.msg⟩) ∧
    (∀ a m, get_random_browser_agent env.agentResp env.agentChoice = .ok a →
      env.page = .requestException m →
      get_price_information ticker exchange env =
        .error ⟨"Error fetching price information: " ++ m⟩) ∧
    (∀ a, get_random_browser_agent env.agentResp env.agentChoice = .ok a →
      env.page = .page none →
      get_price_information ticker exchange env =
        .error ⟨"Price information not found."⟩) ∧
    (∀ a d, get_random_browser_agent env.agentResp env.agentChoice = .ok a →
      env.page = .page (some d) → pyFloat d.lastPrice = none →
      get_price_information ticker exchange env =
        .error ⟨"Error converting price information: could not convert string to float: "
          ++ d.lastPrice⟩) ∧
    (∀ r, get_price_information ticker exchange env = .ok r →
      ∃ d, env.page = .page (some d) ∧ pyFloat d.lastPrice = some r.price) := by
  refine ⟨?_, ?_, ?_, ?_, ?_⟩
  · intro e he
    simp [get_price_information, he]
  · intro a m ha hpg
    simp [get_price_information, ha, hpg]
  · intro a ha hpg
    simp [get_price_information, ha, hpg]
  · intro a d ha hpg hf
    simp [get_price_information, ha, hpg, hf]
  · intro r hr
    obtain ⟨d, hd, hp, -⟩ := (get_price_information_ok ticker exchange env r hr).2.2.1
    exact ⟨d, hd, hp⟩

/-- C8 witness: a fetched page with no matching price element surfaces as a
price-fetch failure, not a zero price. -/
theorem claim_C8_witness :
    get_price_information "SHOP" "TSE" quoteEnvNoDiv =
      .error ⟨"Price information not found."⟩ :=
  (claim_C8_quote_failures "SHOP" "TSE" quoteEnvNoDiv).2.2.1 agentW agentRespW_ok rfl

/-- C9: the quote service echoes its input ticker into the returned record,
so the guard in `Stock.__post_init__` always holds and a successful
construction overwrites the caller-supplied price, currency and usd_price
fields with the fetched record's values, whatever values were supplied. -/
theorem claim_C9_construction_overwrites (ticker exchange : String)
    (price₀ : ℚ) (currency₀ : String) (usd₀ : ℚ) (env : QuoteEnv)
    (info : PriceRecord)
    (h : get_price_information ticker exchange env = .ok info) :
    info.ticker = ticker ∧
    Stock.make ticker exchange price₀ currency₀ usd₀ env =
      .ok ⟨ticker, exchange, info.price, info.currency, info.usd_price⟩ := by
  have ht := (get_price_information_ok ticker exchange env info h).1
  refine ⟨ht, ?_⟩
  simp [Stock.make, h, ht]

/-- C9 witness: caller-supplied junk fields 7, "EUR", 9 are overwritten by
the fetched record. -/
theorem claim_C9_witness :
    Stock.make "MSFT" "NASDAQ" 7 "EUR" 9 quoteEnvUSD =
      .ok ⟨"MSFT", "NASDAQ", (50 : ℚ), "USD", (50 : ℚ)⟩ :=
  (claim_C9_construction_overwrites "MSFT" "NASDAQ" 7 "EUR" 9 quoteEnvUSD
    ⟨"MSFT", "NASDAQ", 50, "USD", 50⟩ gpi_USD).2

/-- C10: displaying a portfolio summary leaves the portfolio unchanged —
the loop writes only the local row list, so the portfolio component of the
final state is the portfolio passed in, position list, order and all
fields included. -/
theorem claim_C10_display_frame (p : Portfolio) :
    (display_portfolio_summary p).1.portfolio = p := by
  rw [display_portfolio_summary]
  exact display_loop_portfolio _ _ _
